import Mathlib

/-!
Verification of the component composition and lifecycle core of the argos SDK
(file src/_UiComponent.js): the component factory (_instantiateComponent), the
attachment manager (_attachUiComponent / _detachUiComponent), the lifecycle
controller (_startupChildComponent / _destroyChildComponent), and the two leaf
instance variants (DomContentComponent and Control).

The embedding models:
- JavaScript objects used for property mixing as association lists (Obj),
  with lang.mixin copying source keys over the destination in order;
- the DOM as a store mapping node ids to node records (tag, attrs, classes,
  parent pointer, ordered child list); the dojo dom-construct operations
  create, toDom and place act on this store.  A numeric position inserts
  before the position-th child and appends when out of range, matching
  dojo/dom-construct.place; appendChild/insertBefore first detach the node
  from its current parent.  (When a node is repositioned inside its current
  parent the browser's live NodeList indexing can differ by one from the
  remove-then-insert model; no claim repositions a node within its parent.)
- the dojo declare class chains as an explicit ancestor relation so that
  isInstanceOf probes are derived from the declared base lists rather than
  stipulated.
Machine integers do not occur; ids and positions are naturals.
-/

/-! ## JavaScript object model -/

/-- Identifier of a DOM node in the store. -/
abbrev NodeId := Nat

/-- Content of a component definition: either a static markup string or a
callback invoked with (root, owner, self); the three opaque references are
modelled as naturals. -/
inductive Content where
  | markup (s : String)
  | callback (f : Nat → Nat → Nat → String)

/-- Resolution of a content value the way the source does it:
lang.isFunction(content) ? content.call(this, root, owner, self) : content. -/
def resolveContent (c : Content) (root owner selfId : Nat) : String :=
  match c with
  | .markup s => s
  | .callback f => f root owner selfId

/-- JavaScript truthiness of an optional content value: absent and the empty
string are falsy, a nonempty string and any function are truthy. -/
def truthyContent : Option Content → Bool
  | none => false
  | some (.markup s) => s != ""
  | some (.callback _) => true

/-- JavaScript truthiness of an optional string: absent and empty are falsy. -/
def truthyStr : Option String → Bool
  | none => false
  | some s => s != ""

/-- JavaScript a || b on nullable node references. -/
def jsOr (a b : Option NodeId) : Option NodeId :=
  match a with
  | some x => some x
  | none => b

/-- Values stored on JavaScript objects in this embedding.  A definition is
mixed in by reference (_componentSource), modelled by the opaque defnRef id;
root and owner context references are ctxRef. -/
inductive JsVal where
  | str (s : String)
  | num (n : Int)
  | boolean (b : Bool)
  | undefined
  | nodeRef (n : NodeId)
  | attrsVal (l : List (String × String))
  | contentVal (c : Content)
  | ctxRef (n : Nat)
  | defnRef (n : Nat)
  | componentsVal (n : Nat)

/-- A JavaScript object: ordered key/value pairs with unique keys. -/
abbrev Obj := List (String × JsVal)

/-- Property lookup on an object (first matching key). -/
def Obj.get : Obj → String → Option JsVal
  | [], _ => none
  | (k1, v) :: rest, k => if k1 = k then some v else Obj.get rest k

/-- Property write dest[k] = v: replaces the value of an existing key in
place, appends a new key at the end, as JavaScript assignment does. -/
def Obj.set : Obj → String → JsVal → Obj
  | [], k, v => [(k, v)]
  | (k1, v1) :: rest, k, v =>
      if k1 = k then (k1, v) :: rest else (k1, v1) :: Obj.set rest k v

/-- dojo lang.mixin(dest, src): copies every property of src onto dest in
order, so src values override dest values at shared keys. -/
def lang.mixin (dest : Obj) : Obj → Obj
  | [] => dest
  | (k, v) :: rest => lang.mixin (Obj.set dest k v) rest

/-! ## DOM model -/

/-- A DOM node record: element tag (for createElement nodes), source markup
(for toDom-parsed nodes), attributes, css classes, parent pointer and ordered
children. -/
structure NodeData where
  tag : Option String := none
  markup : Option String := none
  attrs : List (String × String) := []
  classes : List String := []
  parent : Option NodeId := none
  children : List NodeId := []
  deriving Repr, DecidableEq

/-- The DOM: an allocator counter and a store from node ids to records. -/
structure Dom where
  nextId : Nat
  nodes : NodeId → Option NodeData

/-- The empty DOM. -/
def Dom.empty : Dom := { nextId := 0, nodes := fun _ => none }

/-- Parent of a node (its parentNode pointer). -/
def Dom.parentOf (dom : Dom) (n : NodeId) : Option NodeId :=
  (dom.nodes n).bind (fun d => d.parent)

/-- Ordered children of a node (empty when the node is not in the store). -/
def Dom.childrenOf (dom : Dom) (n : NodeId) : List NodeId :=
  match dom.nodes n with
  | some d => d.children
  | none => []

/-- Update the record of one node in the store (no-op when absent). -/
def Dom.update (dom : Dom) (x : NodeId) (f : NodeData → NodeData) : Dom :=
  { dom with nodes := fun k => if k = x then (dom.nodes k).map f else dom.nodes k }

/-- Remove a node from its parent: filter it out of the parent's child list
and clear its parent pointer; a no-op when it has no parent
(node.parentNode.removeChild(node) semantics). -/
def removeFromParent (n : NodeId) (dom : Dom) : Dom :=
  match dom.parentOf n with
  | none => dom
  | some p =>
      Dom.update
        (Dom.update dom p (fun d => { d with children := d.children.filter (fun c => c != n) }))
        n (fun d => { d with parent := none })

/-- Insertion of an element at an index in a list, appending when the index
is beyond the end (dojo numeric-position placement). -/
def insertAt (l : List NodeId) (i : Nat) (n : NodeId) : List NodeId :=
  if l.length ≤ i then l ++ [n] else l.take i ++ n :: l.drop i

/-- dojo dom-construct.toDom(markup): parses markup into a fresh node; the
model allocates a fresh id carrying the source markup. -/
def domConstruct.toDom (markup : String) (dom : Dom) : NodeId × Dom :=
  (dom.nextId,
   { nextId := dom.nextId + 1,
     nodes := fun k =>
       if k = dom.nextId then some { markup := some markup } else dom.nodes k })

/-- Element construction document.createElement(tag) plus attribute
application, the string-tag path of dojo dom-construct.create. -/
def domConstruct.createElem (t : String) (attrs : Option (List (String × String))) (dom : Dom) :
    NodeId × Dom :=
  (dom.nextId,
   { nextId := dom.nextId + 1,
     nodes := fun k =>
       if k = dom.nextId then some { tag := some t, attrs := attrs.getD [] } else dom.nodes k })

/-- dojo dom-construct.create(tag, attrs): when tag is a string an element is
created and attrs applied; when tag is undefined no element is created and
the undefined value is returned, except that applying a nonempty attrs map to
the undefined node throws a TypeError (attr.set dereferences the node). -/
def domConstruct.create (tag : Option String) (attrs : Option (List (String × String)))
    (dom : Dom) : Except String (Option NodeId × Dom) :=
  match tag with
  | some t =>
      let r := domConstruct.createElem t attrs dom
      .ok (some r.1, r.2)
  | none =>
      match attrs with
      | none => .ok (none, dom)
      | some [] => .ok (none, dom)
      | some (_ :: _) => .error "TypeError: cannot set attributes of undefined"

/-- dojo dom-construct.place(node, refNode, position): throws when the
reference node is undefined; otherwise moves the node out of its current
parent and inserts it among the reference node's children, before the
position-th child for a numeric position (appending when out of range) and
appending for the default position. -/
def domConstruct.place (n : NodeId) (ref : Option NodeId) (pos : Option Nat) (dom : Dom) :
    Except String Dom :=
  match ref with
  | none => .error "TypeError: reference node is undefined"
  | some r =>
      let dom1 := removeFromParent n dom
      let idx := match pos with
        | some i => i
        | none => (dom1.childrenOf r).length
      .ok (Dom.update
            (Dom.update dom1 r (fun d => { d with children := insertAt d.children idx n }))
            n (fun d => { d with parent := some r }))

/-- dojo dom-class.add(node, class): appends the css class when missing. -/
def domClass.add (n : NodeId) (c : String) (dom : Dom) : Dom :=
  Dom.update dom n (fun d =>
    { d with classes := if c ∈ d.classes then d.classes else d.classes ++ [c] })

/-! ## dojo declare class chains -/

/-- The classes involved, as declared in the source and its dojo/dijit
collaborators. -/
inductive DojoClass where
  | component          -- argos._Component (generic non-UI base)
  | uiComponent        -- argos._UiComponent = declare([_Component], ...)
  | domContentComponent -- argos.DomContentComponent = declare([_UiComponent], ...)
  | stateful           -- dojo/Stateful
  | control            -- argos.Control = declare([Stateful, _UiComponent], ...)
  | widgetBase         -- dijit/_WidgetBase (extends Stateful)
  | container          -- dijit/_Container (mixed into widgets)
  | widgetSub          -- an external widget class extending _WidgetBase
  | containerSub       -- an external widget class extending _WidgetBase and _Container
  deriving Repr, DecidableEq

/-- Linearized ancestor list of each class, read off the declare base lists:
_UiComponent = declare([_Component]), DomContentComponent =
declare([_UiComponent]), Control = declare([Stateful, _UiComponent]).
Control assigns individual _WidgetBase prototype methods (placeAt, set, get,
and helpers) but that does not add _WidgetBase to its declared chain. -/
def ancestors : DojoClass → List DojoClass
  | .component => [.component]
  | .uiComponent => [.uiComponent, .component]
  | .domContentComponent => [.domContentComponent, .uiComponent, .component]
  | .stateful => [.stateful]
  | .control => [.control, .stateful, .uiComponent, .component]
  | .widgetBase => [.widgetBase, .stateful]
  | .container => [.container, .widgetBase, .stateful]
  | .widgetSub => [.widgetSub, .widgetBase, .stateful]
  | .containerSub => [.containerSub, .container, .widgetBase, .stateful]

/-- dojo declare's isInstanceOf probe: membership in the ancestor chain. -/
def isInstanceOf (c target : DojoClass) : Bool :=
  (ancestors c).contains target

/-- The methods Control copies from the _WidgetBase prototype
(source lines 258 to 266), without becoming an instance of _WidgetBase. -/
def controlBorrowedWidgetMethods : List String :=
  ["placeAt", "set", "get", "_set", "_attrToDom", "_getAttrNames",
   "_attrPairNames", "_applyAttributes"]

/-! ## Runtime instances -/

/-- The classes a runtime component instance can have in this core. -/
inductive InstanceClass where
  | domContentComponent
  | control
  | widgetSub
  | containerWidgetSub
  deriving Repr, DecidableEq

/-- Dojo class of each instance class. -/
def dojoClassOf : InstanceClass → DojoClass
  | .domContentComponent => .domContentComponent
  | .control => .control
  | .widgetSub => .widgetSub
  | .containerWidgetSub => .containerSub

/-- A runtime component instance.  JavaScript objects are duck-typed, so one
record covers every variant; fields not set by a variant keep their defaults.
startupCalls and destroyCalls count how often the instance's startup and
destroy methods have been invoked. -/
structure Instance where
  cls : InstanceClass
  domNode : Option NodeId := none
  containerNode : Option NodeId := none
  tag : Option String := none
  attrs : Option (List (String × String)) := none
  content : Option Content := none
  baseClass : Option String := none
  _componentRoot : Nat := 0
  _componentOwner : Nat := 0
  selfId : Nat := 0
  started : Bool := false
  beingDestroyed : Bool := false
  startupCalls : Nat := 0
  destroyCalls : Nat := 0
  assigned : Obj := []

/-- instance.isInstanceOf(_WidgetBase). -/
def Instance.isWidgetBase (i : Instance) : Bool :=
  isInstanceOf (dojoClassOf i.cls) .widgetBase

/-- this.isInstanceOf(_Container). -/
def Instance.isContainer (i : Instance) : Bool :=
  isInstanceOf (dojoClassOf i.cls) .container

/-- The instance's startup method.  For widget classes this is dijit
_WidgetBase.startup (external): it marks the widget started.  For the two
argos leaf classes the method is inherited from _Component, which is not part
of the sources under verification.  Modelled from the spec: _Component's
startup performs the generic child sweep and carries no per-instance idempotence
guard of its own; the started guard lives in the lifecycle controller and
applies only to widget-capable instances.  Either way the invocation counter
increases. -/
def Instance.startup (i : Instance) : Instance :=
  if i.isWidgetBase then
    { i with started := true, startupCalls := i.startupCalls + 1 }
  else
    { i with startupCalls := i.startupCalls + 1 }

/-- The instance's destroy method.
DomContentComponent.destroy (source lines 177 to 187): if a node is assigned,
remove it from its parent when attached, then clear the node reference.
Control.destroy (source lines 249 to 256): remove the node from its parent
when attached, then clear both the node and container node references.
Widget classes use dijit _WidgetBase.destroy (external): it marks the widget
being-destroyed and tears down its rendering. -/
def Instance.destroy (i : Instance) (dom : Dom) : Instance × Dom :=
  match i.cls with
  | .domContentComponent =>
      match i.domNode with
      | some n =>
          let dom1 := if (dom.parentOf n).isSome then removeFromParent n dom else dom
          ({ i with domNode := none, destroyCalls := i.destroyCalls + 1 }, dom1)
      | none => ({ i with destroyCalls := i.destroyCalls + 1 }, dom)
  | .control =>
      let dom1 := match i.domNode with
        | some n => if (dom.parentOf n).isSome then removeFromParent n dom else dom
        | none => dom
      ({ i with domNode := none, containerNode := none,
                destroyCalls := i.destroyCalls + 1 }, dom1)
  | _ =>
      let dom1 := match i.domNode with
        | some n => removeFromParent n dom
        | none => dom
      ({ i with beingDestroyed := true, domNode := none,
                destroyCalls := i.destroyCalls + 1 }, dom1)

/-! ## Lifecycle controller (source lines 77 to 86) -/

/-- _startupChildComponent: if instance.isInstanceOf(_WidgetBase) and
instance._started, return; otherwise instance.startup(). -/
def _startupChildComponent (inst : Instance) : Instance :=
  if inst.isWidgetBase && inst.started then inst
  else inst.startup

/-- _destroyChildComponent: if instance.isInstanceOf(_WidgetBase) and
instance._beingDestroyed, return; otherwise instance.destroy(). -/
def _destroyChildComponent (inst : Instance) (dom : Dom) : Instance × Dom :=
  if inst.isWidgetBase && inst.beingDestroyed then (inst, dom)
  else inst.destroy dom

/-! ## Component factory (source lines 87 to 118) -/

/-- A component definition descriptor.  srcId stands for the object identity
of the descriptor (it is mixed into instances by reference as
_componentSource); components is carried opaquely for recursive child
instantiation by the caller. -/
structure ComponentDefinition where
  type : Option String := none
  tag : Option String := none
  attrs : Option (List (String × String)) := none
  content : Option Content := none
  domOnly : Option Bool := none
  components : JsVal := .undefined
  props : Obj := []
  position : Option Nat := none
  srcId : Nat := 0

/-- JsVal image of an optional string field. -/
def optStr : Option String → JsVal
  | some s => .str s
  | none => .undefined

/-- JsVal image of an optional attrs field. -/
def optAttrs : Option (List (String × String)) → JsVal
  | some l => .attrsVal l
  | none => .undefined

/-- JsVal image of an optional content field. -/
def optContent : Option Content → JsVal
  | some c => .contentVal c
  | none => .undefined

/-- Decode an optional node-valued property of an object. -/
def getNodeProp (o : Obj) (k : String) : Option NodeId :=
  match Obj.get o k with
  | some (.nodeRef n) => some n
  | _ => none

/-- Decode an optional string-valued property of an object. -/
def getStrProp (o : Obj) (k : String) : Option String :=
  match Obj.get o k with
  | some (.str s) => some s
  | _ => none

/-- Decode an optional attrs-valued property of an object. -/
def getAttrsProp (o : Obj) (k : String) : Option (List (String × String)) :=
  match Obj.get o k with
  | some (.attrsVal l) => some l
  | _ => none

/-- Decode an optional content-valued property of an object. -/
def getContentProp (o : Obj) (k : String) : Option Content :=
  match Obj.get o k with
  | some (.contentVal c) => some c
  | _ => none

/-- Decode a context reference property with a fallback. -/
def getCtxProp (o : Obj) (k : String) (dflt : Nat) : Nat :=
  match Obj.get o k with
  | some (.ctxRef n) => n
  | _ => dflt

/-- Construction of a DomContentComponent (source lines 99 to 104 and the
constructor at lines 172 to 176): the factory object carries components and
the three context fields, definition.props is mixed in over it, the
constructor mixes the result onto the instance and then assigns the node
(so the node parameter wins over any props-supplied domNode). -/
def mkDomContent (defn : ComponentDefinition) (root owner : Nat) (node : Option NodeId) :
    Instance :=
  let assigned := lang.mixin
    [("components", defn.components),
     ("_componentRoot", .ctxRef root),
     ("_componentOwner", .ctxRef owner),
     ("_componentSource", .defnRef defn.srcId)] defn.props
  { cls := .domContentComponent,
    domNode := node,
    _componentRoot := getCtxProp assigned "_componentRoot" root,
    _componentOwner := getCtxProp assigned "_componentOwner" owner,
    assigned := assigned }

/-- Construction of a Control (source lines 108 to 116 and the Control
declaration at 205 to 214): the factory object carries components, content,
attrs, tag and the context fields, definition.props is mixed in over it, and
Stateful's postscript mixes the whole parameter object onto the instance, so
props can override any of these fields on the instance. -/
def mkControl (defn : ComponentDefinition) (root owner : Nat) : Instance :=
  let assigned := lang.mixin
    [("components", defn.components),
     ("content", optContent defn.content),
     ("attrs", optAttrs defn.attrs),
     ("tag", optStr defn.tag),
     ("_componentRoot", .ctxRef root),
     ("_componentOwner", .ctxRef owner),
     ("_componentSource", .defnRef defn.srcId)] defn.props
  { cls := .control,
    domNode := getNodeProp assigned "domNode",
    containerNode := getNodeProp assigned "containerNode",
    tag := getStrProp assigned "tag",
    attrs := getAttrsProp assigned "attrs",
    content := getContentProp assigned "content",
    baseClass := getStrProp assigned "baseClass",
    _componentRoot := getCtxProp assigned "_componentRoot" root,
    _componentOwner := getCtxProp assigned "_componentOwner" owner,
    assigned := assigned }

/-- Result of _instantiateComponent: a created instance, or delegation to the
generic non-UI instantiation path when definition.type is truthy. -/
inductive InstResult where
  | made (i : Instance)
  | delegated

/-- _instantiateComponent(definition, root, owner) (source lines 87 to 118):
a truthy type delegates to the inherited generic path; otherwise, when
domOnly is not strictly false, a node is produced from truthy content
(parsed, with callables invoked as (root, owner, self)) or else from
dom-construct.create(tag, attrs), and wrapped in a DomContentComponent;
when domOnly is strictly false a Control is constructed with rendering
deferred.  selfId is the identity of the component on which the method runs
(the this passed as the callback's third argument). -/
def _instantiateComponent (defn : ComponentDefinition) (root owner selfId : Nat) (dom : Dom) :
    Except String (InstResult × Dom) :=
  if truthyStr defn.type then .ok (.delegated, dom)
  else if defn.domOnly ≠ some false then
    if truthyContent defn.content then
      match defn.content with
      | some c =>
          let r := domConstruct.toDom (resolveContent c root owner selfId) dom
          .ok (.made (mkDomContent defn root owner (some r.1)), r.2)
      | none => .ok (.made (mkDomContent defn root owner none), dom)
    else
      match domConstruct.create defn.tag defn.attrs dom with
      | .error e => .error e
      | .ok (node, dom1) => .ok (.made (mkDomContent defn root owner node), dom1)
  else
    .ok (.made (mkControl defn root owner), dom)

/-! ## Control rendering (source lines 223 to 242) -/

/-- Control.render(): a no-op when the node already exists; otherwise the
node is parsed from truthy content (callables invoked with
(_componentRoot, _componentOwner, this)) or created from
this.tag || 'div' with this.attrs; the container node is set to the node and
a truthy baseClass is added as a css class. -/
def Control.render (i : Instance) (dom : Dom) : Instance × Dom :=
  match i.domNode with
  | some _ => (i, dom)
  | none =>
      let made : NodeId × Dom :=
        if truthyContent i.content then
          match i.content with
          | some c =>
              domConstruct.toDom (resolveContent c i._componentRoot i._componentOwner i.selfId) dom
          | none => domConstruct.createElem "div" i.attrs dom
        else
          domConstruct.createElem
            (match i.tag with
             | some t => if t = "" then "div" else t
             | none => "div") i.attrs dom
      let dom2 := if truthyStr i.baseClass then
          domClass.add made.1 (i.baseClass.getD "") made.2
        else made.2
      ({ i with domNode := some made.1, containerNode := some made.1 }, dom2)

/-! ## Attachment manager (source lines 129 to 156) -/

/-- dijit _WidgetBase.placeAt(reference, position) for a node reference
(external): dom-construct.place of the widget's root node; dereferencing an
absent root node throws. -/
def Instance.placeAt (i : Instance) (ref : Option NodeId) (pos : Option Nat) (dom : Dom) :
    Except String Dom :=
  match i.domNode with
  | some n => domConstruct.place n ref pos dom
  | none => .error "TypeError: widget has no domNode"

/-- dijit _Container.addChild(widget, insertIndex) (external): inserts the
child widget's root node into the container's containerNode at the given
index. -/
def Instance.addChild (self child : Instance) (pos : Option Nat) (dom : Dom) :
    Except String Dom :=
  child.placeAt self.containerNode pos dom

/-- _attachUiComponent(instance, context, position) (source lines 129 to
143), with this = self: referenceNode is this.containerNode || this.domNode;
widget-capable children go through addChild on container-capable parents,
else through placeAt into referenceNode (retargeted to this.domNode when the
child's root node equals the reference node); non-widget children with a node
are placed directly, with the same retargeting. -/
def _attachUiComponent (self inst : Instance) (position : Option Nat) (dom : Dom) :
    Except String Dom :=
  let referenceNode := jsOr self.containerNode self.domNode
  if inst.isWidgetBase then
    if self.isContainer then
      Instance.addChild self inst position dom
    else if referenceNode.isSome then
      inst.placeAt
        (if inst.domNode = referenceNode then self.domNode else referenceNode)
        position dom
    else .ok dom
  else
    match inst.domNode with
    | some n =>
        domConstruct.place n
          (if some n = referenceNode then self.domNode else referenceNode)
          position dom
    | none => .ok dom

/-- dijit _Container.removeChild(widget) (external): detaches the child
widget's root node from its parent node. -/
def Instance.removeChild (child : Instance) (dom : Dom) : Dom :=
  match child.domNode with
  | some n => removeFromParent n dom
  | none => dom

/-- _detachUiComponent(instance, context) (source lines 144 to 156): widgets
are removed through the container's child management when the parent is
container-capable, else their node is removed from its parent node when
attached; non-widget instances have their node removed from its parent node
when attached. -/
def _detachUiComponent (self inst : Instance) (dom : Dom) : Dom :=
  if inst.isWidgetBase then
    if self.isContainer then
      Instance.removeChild inst dom
    else
      match inst.domNode with
      | some n => if (dom.parentOf n).isSome then removeFromParent n dom else dom
      | none => dom
  else
    match inst.domNode with
    | some n => if (dom.parentOf n).isSome then removeFromParent n dom else dom
    | none => dom

/-! ## Attachment sequences, for the sibling ordering claims -/

/-- Attach a list of (instance, position) pairs in order, as successive
_attachUiComponent calls on the same parent. -/
def attachList (self : Instance) : List (Instance × Option Nat) → Dom → Except String Dom
  | [], dom => .ok dom
  | (i, p) :: rest, dom =>
      match _attachUiComponent self i p dom with
      | .error e => .error e
      | .ok dom1 => attachList self rest dom1

/-- Successive placements of (node, position) pairs into one reference node. -/
def placeSeq : List (NodeId × Nat) → NodeId → Dom → Except String Dom
  | [], _, dom => .ok dom
  | (n, p) :: rest, r, dom =>
      match domConstruct.place n (some r) (some p) dom with
      | .error e => .error e
      | .ok dom1 => placeSeq rest r dom1

/-- A fresh widget instance wrapping one node, as attach receives it. -/
def mkWidget (n : NodeId) : Instance := { cls := .widgetSub, domNode := some n }

/-- A fresh plain DomContentComponent instance wrapping one node. -/
def mkPlainNodeInstance (n : NodeId) : Instance :=
  { cls := .domContentComponent, domNode := some n }

/-- Observation of the parent pointer of a node after a fallible DOM
operation (none when the operation threw). -/
def parentAfter (res : Except String Dom) (n : NodeId) : Option (Option NodeId) :=
  match res with
  | .ok d => some (d.parentOf n)
  | .error _ => none

/-- Observation of a node's child list after a fallible DOM operation (none
when the operation threw). -/
def childrenAfter (res : Except String Dom) (n : NodeId) : Option (List NodeId) :=
  match res with
  | .ok d => some (d.childrenOf n)
  | .error _ => none

/-- Freshness of a list of (node, position) pairs with respect to a DOM and
a target parent: every node is allocated, currently parentless, and distinct
from the target. -/
def freshNodes (dom : Dom) (r : NodeId) : List (NodeId × Nat) → Bool
  | [] => true
  | (n, _) :: rest =>
      (dom.nodes n).isSome && (dom.parentOf n == none) && (n != r) && freshNodes dom r rest

/-- The positions of a pair list are strictly ascending starting at or above
a bound. -/
def ascendingFrom : Nat → List (NodeId × Nat) → Bool
  | _, [] => true
  | b, (_, p) :: rest => (b ≤ p) && ascendingFrom (p + 1) rest

/-! ## General lemmas about the embedding -/

/-- Rendering always leaves the Control with a node. -/
lemma render_sets_node (i : Instance) (dom : Dom) :
    ((Control.render i dom).1).domNode.isSome := by
  rcases h : i.domNode with _ | n <;> simp [Control.render, h]

/-- Rendering is a no-op once a node exists. -/
lemma render_noop_of_node (i : Instance) (dom : Dom) (n : NodeId) (h : i.domNode = some n) :
    Control.render i dom = (i, dom) := by
  simp [Control.render, h]

/-! ## C5 -/

/-- C5: Control.render() is idempotent: it is a no-op when the node is
already set, and calling render twice yields the very same instance, node
and DOM as calling it once, so the node reference is identical both times
and an existing node is never replaced. -/
theorem control_render_idempotent (i : Instance) (dom : Dom) :
    (∀ n, i.domNode = some n → Control.render i dom = (i, dom)) ∧
    Control.render (Control.render i dom).1 (Control.render i dom).2 = Control.render i dom := by
  refine ⟨fun n hn => render_noop_of_node i dom n hn, ?_⟩
  obtain ⟨n, hn⟩ := Option.isSome_iff_exists.mp (render_sets_node i dom)
  rw [render_noop_of_node _ _ n hn]

/-- Witness for C5 at a concrete rendered Control. -/
theorem control_render_idempotent_witness :
    Control.render { cls := .control, domNode := some 3 } Dom.empty
      = ({ cls := .control, domNode := some 3 }, Dom.empty) :=
  (control_render_idempotent { cls := .control, domNode := some 3 } Dom.empty).1 3 rfl

/-! ## C2 -/

/-- C2 counterexample: instantiating a descriptor with no type, no tag, no
content and no attrs (domOnly defaulted) raises no error but produces a
DomContentComponent whose node is undefined and allocates nothing in the
DOM: no minimal default element is created on this path. -/
theorem instantiate_missing_tag_no_default_element :
    _instantiateComponent {} 0 0 0 Dom.empty
        = .ok (.made (mkDomContent {} 0 0 none), Dom.empty)
      ∧ (mkDomContent {} 0 0 none).domNode = none := by
  exact ⟨rfl, rfl⟩

/-- C2 amended: with tag and content both absent no error is raised: the
Control render path falls back to a div element, while the DomOnlyNode
factory path wraps an undefined node without creating any element (when
attrs is absent as well). -/
theorem missing_tag_content_behavior (i : Instance) (dom : Dom)
    (defn : ComponentDefinition) (root owner selfId : Nat)
    (hnode : i.domNode = none) (hcontent : i.content = none) (htag : i.tag = none)
    (hbase : i.baseClass = none)
    (htype : defn.type = none) (hdomOnly : defn.domOnly ≠ some false)
    (hdtag : defn.tag = none) (hdcontent : defn.content = none) (hdattrs : defn.attrs = none) :
    ((Control.render i dom).1.domNode = some dom.nextId
      ∧ ((Control.render i dom).2.nodes dom.nextId)
          = some { tag := some "div", attrs := i.attrs.getD [] })
    ∧ _instantiateComponent defn root owner selfId dom
        = .ok (.made (mkDomContent defn root owner none), dom)
      ∧ (mkDomContent defn root owner none).domNode = none := by
  refine ⟨⟨?_, ?_⟩, ?_, rfl⟩
  · simp [Control.render, hnode, hcontent, htag, domConstruct.createElem, truthyContent,
      truthyStr, hbase]
  · simp [Control.render, hnode, hcontent, htag, domConstruct.createElem, truthyContent,
      truthyStr, hbase]
  · simp [_instantiateComponent, htype, hdomOnly, hdcontent, hdtag, hdattrs, truthyStr,
      truthyContent, domConstruct.create]

/-- Witness for C2 amended at a concrete bare Control and bare descriptor. -/
theorem missing_tag_content_behavior_witness :
    ((Control.render { cls := .control } Dom.empty).1.domNode = some Dom.empty.nextId
      ∧ ((Control.render { cls := .control } Dom.empty).2.nodes Dom.empty.nextId)
          = some { tag := some "div", attrs := (none : Option (List (String × String))).getD [] })
    ∧ _instantiateComponent {} 0 0 0 Dom.empty
        = .ok (.made (mkDomContent {} 0 0 none), Dom.empty)
      ∧ (mkDomContent {} 0 0 none).domNode = none :=
  missing_tag_content_behavior { cls := .control } Dom.empty {} 0 0 0
    rfl rfl rfl rfl rfl (by decide) rfl rfl rfl

/-! ## C7 -/

/-- C7: when no placement branch matches (a non-widget child with no node,
or a widget-capable child meeting a non-container parent with no reference
node), attach returns normally with no error and the DOM hierarchy is
unchanged: the child is silently left unattached. -/
theorem attach_silent_orphan (self inst : Instance) (pos : Option Nat) (dom : Dom) :
    (inst.isWidgetBase = false → inst.domNode = none →
       _attachUiComponent self inst pos dom = .ok dom)
    ∧ (inst.isWidgetBase = true → self.isContainer = false →
       self.containerNode = none → self.domNode = none →
       _attachUiComponent self inst pos dom = .ok dom) := by
  constructor
  · intro hw hn
    simp [_attachUiComponent, hw, hn]
  · intro hw hc hcn hdn
    simp [_attachUiComponent, hw, hc, hcn, hdn, jsOr]

/-- Witness for C7: a plain parent with no nodes, probed with a node-less
non-widget child and with a widget child. -/
theorem attach_silent_orphan_witness :
    _attachUiComponent { cls := .widgetSub } { cls := .domContentComponent } none Dom.empty
        = .ok Dom.empty
    ∧ _attachUiComponent { cls := .widgetSub } { cls := .widgetSub } none Dom.empty
        = .ok Dom.empty :=
  ⟨(attach_silent_orphan { cls := .widgetSub } { cls := .domContentComponent } none Dom.empty).1
      rfl rfl,
   (attach_silent_orphan { cls := .widgetSub } { cls := .widgetSub } none Dom.empty).2
      rfl rfl rfl rfl⟩

/-! ## C1 -/

/-- C1 amended: for every widget-capable instance with fresh flags, invoking
the lifecycle controller's start twice invokes the startup hook exactly once
and invoking stop twice invokes the destroy hook exactly once: the started
and being-destroyed flags guard the second calls.  (For non-widget instances
the guards do not apply; see the counterexample.) -/
theorem lifecycle_idempotent_for_widgets (i : Instance) (dom : Dom)
    (hw : i.isWidgetBase = true) (hs : i.started = false) (hb : i.beingDestroyed = false)
    (hsc : i.startupCalls = 0) (hdc : i.destroyCalls = 0) :
    (_startupChildComponent (_startupChildComponent i)).startupCalls = 1
    ∧ (_destroyChildComponent (_destroyChildComponent i dom).1
         (_destroyChildComponent i dom).2).1.destroyCalls = 1 := by
  constructor
  · simp [_startupChildComponent, Instance.startup, Instance.isWidgetBase] at *
    simp [hw, hs, hsc]
  · rcases hcls : i.cls with _ | _ | _ | _
    · simp [Instance.isWidgetBase, dojoClassOf, isInstanceOf, ancestors, hcls] at hw
    · simp [Instance.isWidgetBase, dojoClassOf, isInstanceOf, ancestors, hcls] at hw
    · rcases hn : i.domNode with _ | n <;>
        simp [_destroyChildComponent, Instance.destroy, Instance.isWidgetBase, dojoClassOf,
          isInstanceOf, ancestors, hcls, hb, hn, hdc]
    · rcases hn : i.domNode with _ | n <;>
        simp [_destroyChildComponent, Instance.destroy, Instance.isWidgetBase, dojoClassOf,
          isInstanceOf, ancestors, hcls, hb, hn, hdc]

/-- Witness for C1 amended at a fresh concrete widget instance. -/
theorem lifecycle_idempotent_for_widgets_witness :
    (_startupChildComponent (_startupChildComponent { cls := .widgetSub })).startupCalls = 1
    ∧ (_destroyChildComponent (_destroyChildComponent { cls := .widgetSub } Dom.empty).1
         (_destroyChildComponent { cls := .widgetSub } Dom.empty).2).1.destroyCalls = 1 :=
  lifecycle_idempotent_for_widgets { cls := .widgetSub } Dom.empty rfl rfl rfl rfl rfl

/-- C1 counterexample: a DomContentComponent instance is not widget-capable,
so neither guard applies: starting it twice invokes its startup method twice
and stopping it twice invokes its destroy method twice, not exactly once. -/
theorem lifecycle_hooks_twice_for_nonwidget :
    (_startupChildComponent (_startupChildComponent
        { cls := .domContentComponent })).startupCalls = 2
    ∧ (_destroyChildComponent (_destroyChildComponent
          { cls := .domContentComponent } Dom.empty).1
        (_destroyChildComponent { cls := .domContentComponent } Dom.empty).2).1.destroyCalls = 2
    ∧ (2 : Nat) ≠ 1 := by
  exact ⟨rfl, rfl, by decide⟩

/-! ## Object mixin lemmas -/

/-- Writing a key makes it readable. -/
lemma Obj.get_set_self (o : Obj) (k : String) (v : JsVal) :
    Obj.get (Obj.set o k v) k = some v := by
  induction o with
  | nil => simp [Obj.set, Obj.get]
  | cons p rest ih =>
      obtain ⟨k1, v1⟩ := p
      by_cases h : k1 = k
      · simp [Obj.set, Obj.get, h]
      · simp [Obj.set, Obj.get, h, ih]

/-- Writing one key leaves the others unchanged. -/
lemma Obj.get_set_ne (o : Obj) (k k2 : String) (v : JsVal) (h : k2 ≠ k) :
    Obj.get (Obj.set o k v) k2 = Obj.get o k2 := by
  induction o with
  | nil => simp [Obj.set, Obj.get, Ne.symm h]
  | cons p rest ih =>
      obtain ⟨k1, v1⟩ := p
      by_cases hp : k1 = k
      · subst hp
        simp [Obj.set, Obj.get, Ne.symm h]
      · simp [Obj.set, Obj.get, hp, ih]

/-- A key absent from an object reads as none. -/
lemma Obj.get_eq_none (o : Obj) (k : String) (h : k ∉ o.map Prod.fst) :
    Obj.get o k = none := by
  induction o with
  | nil => simp [Obj.get]
  | cons p rest ih =>
      obtain ⟨k1, v1⟩ := p
      simp only [List.map_cons, List.mem_cons] at h
      push_neg at h
      simp [Obj.get, Ne.symm h.1, ih h.2]

/-- Mixing in a source that lacks a key leaves that key of the destination
unchanged. -/
lemma mixin_get_not_mem (d s : Obj) (k : String) (h : k ∉ s.map Prod.fst) :
    Obj.get (lang.mixin d s) k = Obj.get d k := by
  induction s generalizing d with
  | nil => simp [lang.mixin]
  | cons p rest ih =>
      obtain ⟨k1, v1⟩ := p
      simp only [List.map_cons, List.mem_cons] at h
      push_neg at h
      calc Obj.get (lang.mixin d ((k1, v1) :: rest)) k
          = Obj.get (lang.mixin (Obj.set d k1 v1) rest) k := rfl
        _ = Obj.get (Obj.set d k1 v1) k := ih _ h.2
        _ = Obj.get d k := Obj.get_set_ne d k1 k v1 h.1

/-- A key the source object holds wins after lang.mixin: the source value
overrides whatever the destination had. -/
lemma mixin_get_of_get (d s : Obj) (k : String) (v : JsVal)
    (hnd : (s.map Prod.fst).Nodup) (h : Obj.get s k = some v) :
    Obj.get (lang.mixin d s) k = some v := by
  induction s generalizing d with
  | nil => simp [Obj.get] at h
  | cons p rest ih =>
      obtain ⟨k1, v1⟩ := p
      simp only [List.map_cons, List.nodup_cons] at hnd
      by_cases hp : k1 = k
      · subst hp
        simp only [Obj.get, if_pos rfl] at h
        injection h with hv
        subst hv
        calc Obj.get (lang.mixin d ((k1, v1) :: rest)) k1
            = Obj.get (lang.mixin (Obj.set d k1 v1) rest) k1 := rfl
          _ = Obj.get (Obj.set d k1 v1) k1 := mixin_get_not_mem _ _ _ hnd.1
          _ = some v1 := Obj.get_set_self d k1 v1
      · simp only [Obj.get, if_neg hp] at h
        exact ih _ hnd.2 h

/-! ## C10 -/

/-- C10: definition.props is mixed in after the factory-supplied fields, so
any key the props object carries (including components, content, attrs, tag,
_componentRoot, _componentOwner and _componentSource) ends up on the created
instance with the props value, silently overriding the factory-supplied or
context value, on both the DomContentComponent and the Control path. -/
theorem props_override_factory_fields (defn : ComponentDefinition)
    (root owner selfId : Nat) (dom : Dom) (i : Instance) (dom2 : Dom)
    (k : String) (v : JsVal)
    (hnd : (defn.props.map Prod.fst).Nodup)
    (hget : Obj.get defn.props k = some v)
    (hres : _instantiateComponent defn root owner selfId dom = .ok (.made i, dom2)) :
    Obj.get i.assigned k = some v := by
  unfold _instantiateComponent at hres
  split at hres
  · simp at hres
  · split at hres
    · split at hres
      · split at hres
        · simp only [Except.ok.injEq, Prod.mk.injEq, InstResult.made.injEq] at hres
          rw [← hres.1]
          exact mixin_get_of_get _ _ _ _ hnd hget
        · simp only [Except.ok.injEq, Prod.mk.injEq, InstResult.made.injEq] at hres
          rw [← hres.1]
          exact mixin_get_of_get _ _ _ _ hnd hget
      · split at hres
        · exact absurd hres (by simp)
        · simp only [Except.ok.injEq, Prod.mk.injEq, InstResult.made.injEq] at hres
          rw [← hres.1]
          exact mixin_get_of_get _ _ _ _ hnd hget
    · simp only [Except.ok.injEq, Prod.mk.injEq, InstResult.made.injEq] at hres
      rw [← hres.1]
      exact mixin_get_of_get _ _ _ _ hnd hget

/-- A descriptor whose props object overrides the factory-supplied
components field. -/
def defnOverride : ComponentDefinition := { props := [("components", JsVal.num 5)] }

/-- Witness for C10: the props-supplied components value overrides the
factory-supplied one on the created instance. -/
theorem props_override_factory_fields_witness :
    Obj.get (mkDomContent defnOverride 0 0 none).assigned "components" = some (JsVal.num 5) :=
  props_override_factory_fields defnOverride 0 0 0 Dom.empty
    (mkDomContent defnOverride 0 0 none) Dom.empty "components" (JsVal.num 5)
    (by simp [defnOverride]) rfl rfl

/-! ## C3 -/

/-- C3: for a descriptor without a (truthy) type: when domOnly is not
strictly false, instantiate yields a DomContentComponent whose node is the
parse of the content when given (callables invoked as (root, owner, self)
through resolveContent), or else an element carrying the descriptor's tag
and attrs; when domOnly is strictly false it yields a Control with no node
(absent a props-injected node) until render runs, and render then produces
one. -/
theorem instantiate_variants (defn : ComponentDefinition) (root owner selfId : Nat) (dom : Dom)
    (htype : truthyStr defn.type = false) :
    (∀ c, defn.domOnly ≠ some false → defn.content = some c →
       truthyContent (some c) = true →
       ∃ nid dom2 i, _instantiateComponent defn root owner selfId dom = .ok (.made i, dom2)
         ∧ i.cls = .domContentComponent ∧ i.domNode = some nid
         ∧ dom2.nodes nid = some { markup := some (resolveContent c root owner selfId) })
    ∧ (∀ t, defn.domOnly ≠ some false → defn.content = none → defn.tag = some t →
       ∃ nid dom2 i, _instantiateComponent defn root owner selfId dom = .ok (.made i, dom2)
         ∧ i.cls = .domContentComponent ∧ i.domNode = some nid
         ∧ dom2.nodes nid = some { tag := some t, attrs := defn.attrs.getD [] })
    ∧ (defn.domOnly = some false → "domNode" ∉ defn.props.map Prod.fst →
       _instantiateComponent defn root owner selfId dom
           = .ok (.made (mkControl defn root owner), dom)
         ∧ (mkControl defn root owner).cls = .control
         ∧ (mkControl defn root owner).domNode = none
         ∧ ((Control.render (mkControl defn root owner) dom).1.domNode).isSome = true) := by
  refine ⟨?_, ?_, ?_⟩
  · intro c hdo hc ht
    refine ⟨dom.nextId, (domConstruct.toDom (resolveContent c root owner selfId) dom).2,
      mkDomContent defn root owner (some dom.nextId), ?_, rfl, rfl, ?_⟩
    · simp [_instantiateComponent, htype, if_pos hdo, hc, ht, domConstruct.toDom]
    · simp [domConstruct.toDom]
  · intro t hdo hc htag
    refine ⟨dom.nextId, (domConstruct.createElem t defn.attrs dom).2,
      mkDomContent defn root owner (some dom.nextId), ?_, rfl, rfl, ?_⟩
    · simp [_instantiateComponent, htype, if_pos hdo, hc, htag, truthyContent,
        domConstruct.create, domConstruct.createElem]
    · simp [domConstruct.createElem]
  · intro hdo hnp
    have h2 : (mkControl defn root owner).domNode = none := by
      show getNodeProp _ "domNode" = none
      unfold getNodeProp
      rw [mixin_get_not_mem _ _ _ hnp]
      rfl
    refine ⟨?_, rfl, h2, render_sets_node _ _⟩
    simp [_instantiateComponent, htype, hdo]

/-- Witness for C3 on three concrete descriptors: markup content, tag with
attrs, and a deferred Control. -/
theorem instantiate_variants_witness :
    (∃ nid dom2 i,
       _instantiateComponent { content := some (.markup "<li>A</li>") } 1 2 3 Dom.empty
           = .ok (.made i, dom2)
         ∧ i.cls = .domContentComponent ∧ i.domNode = some nid
         ∧ dom2.nodes nid = some { markup := some (resolveContent (.markup "<li>A</li>") 1 2 3) })
    ∧ (∃ nid dom2 i,
       _instantiateComponent { tag := some "ul", attrs := some [("class", "list")] } 1 2 3
           Dom.empty = .ok (.made i, dom2)
         ∧ i.cls = .domContentComponent ∧ i.domNode = some nid
         ∧ dom2.nodes nid = some { tag := some "ul", attrs := [("class", "list")] })
    ∧ (_instantiateComponent { domOnly := some false, tag := some "div" } 1 2 3 Dom.empty
           = .ok (.made (mkControl { domOnly := some false, tag := some "div" } 1 2), Dom.empty)
         ∧ (mkControl { domOnly := some false, tag := some "div" } 1 2).cls = .control
         ∧ (mkControl { domOnly := some false, tag := some "div" } 1 2).domNode = none
         ∧ ((Control.render (mkControl { domOnly := some false, tag := some "div" } 1 2)
              Dom.empty).1.domNode).isSome = true) :=
  ⟨(instantiate_variants { content := some (.markup "<li>A</li>") } 1 2 3 Dom.empty rfl).1
      (.markup "<li>A</li>") (by decide) rfl rfl,
   (instantiate_variants { tag := some "ul", attrs := some [("class", "list")] } 1 2 3
      Dom.empty rfl).2.1 "ul" (by decide) rfl rfl,
   (instantiate_variants { domOnly := some false, tag := some "div" } 1 2 3 Dom.empty
      rfl).2.2 rfl (by simp)⟩

/-! ## C8 -/

/-- Clearing a node's parent pointer leaves it parentless. -/
lemma parentOf_update_parent_none (d : Dom) (n : NodeId) :
    (Dom.update d n (fun x => { x with parent := none })).parentOf n = none := by
  simp only [Dom.parentOf, Dom.update, if_pos rfl]
  rcases hx : d.nodes n with _ | x <;> simp [hx]

/-- Removing a node from its parent leaves it parentless. -/
lemma parentOf_removeFromParent_self (dom : Dom) (n : NodeId) :
    (removeFromParent n dom).parentOf n = none := by
  unfold removeFromParent
  rcases h : dom.parentOf n with _ | p
  · exact h
  · exact parentOf_update_parent_none _ n

/-- C8: for a DomOnlyNode (DomContentComponent) wrapping a node, detach
followed by destroy leaves the wrapped node with no parent and clears the
instance's node reference; and destroy on a never-attached instance removes
nothing (the DOM is untouched) while still clearing the reference. -/
theorem domonly_detach_destroy (self inst : Instance) (n : NodeId) (dom : Dom)
    (hcls : inst.cls = .domContentComponent) (hnode : inst.domNode = some n) :
    ((Instance.destroy inst (_detachUiComponent self inst dom)).1.domNode = none
      ∧ (Instance.destroy inst (_detachUiComponent self inst dom)).2.parentOf n = none)
    ∧ (dom.parentOf n = none →
        (Instance.destroy inst dom).2 = dom
          ∧ (Instance.destroy inst dom).1.domNode = none) := by
  have hw : inst.isWidgetBase = false := by
    simp [Instance.isWidgetBase, dojoClassOf, isInstanceOf, ancestors, hcls]
  have hd1 : (_detachUiComponent self inst dom).parentOf n = none := by
    rcases hp : dom.parentOf n with _ | p
    · simp [_detachUiComponent, hw, hnode, hp]
    · simp [_detachUiComponent, hw, hnode, hp, parentOf_removeFromParent_self]
  refine ⟨⟨?_, ?_⟩, fun hp => ⟨?_, ?_⟩⟩
  · simp [Instance.destroy, hcls, hnode]
  · simp [Instance.destroy, hcls, hnode, hd1]
  · simp [Instance.destroy, hcls, hnode, hp]
  · simp [Instance.destroy, hcls, hnode, hp]

/-- Witness for C8 at a concrete DomContentComponent attached under node 9.
The DOM holds node 9 with single child 4 and node 4 parented to 9. -/
theorem domonly_detach_destroy_witness :
    ((Instance.destroy { cls := .domContentComponent, domNode := some 4 }
        (_detachUiComponent { cls := .widgetSub, domNode := some 9 }
          { cls := .domContentComponent, domNode := some 4 }
          { nextId := 10,
            nodes := fun k =>
              if k = 9 then some { tag := some "div", children := [4] }
              else if k = 4 then some { tag := some "li", parent := some 9 }
              else none })).1.domNode = none
      ∧ (Instance.destroy { cls := .domContentComponent, domNode := some 4 }
          (_detachUiComponent { cls := .widgetSub, domNode := some 9 }
            { cls := .domContentComponent, domNode := some 4 }
            { nextId := 10,
              nodes := fun k =>
                if k = 9 then some { tag := some "div", children := [4] }
                else if k = 4 then some { tag := some "li", parent := some 9 }
                else none })).2.parentOf 4 = none)
    ∧ ((Instance.destroy { cls := .domContentComponent, domNode := some 4 } Dom.empty).2
          = Dom.empty
        ∧ (Instance.destroy { cls := .domContentComponent, domNode := some 4 }
            Dom.empty).1.domNode = none) :=
  ⟨(domonly_detach_destroy { cls := .widgetSub, domNode := some 9 }
      { cls := .domContentComponent, domNode := some 4 } 4
      { nextId := 10,
        nodes := fun k =>
          if k = 9 then some { tag := some "div", children := [4] }
          else if k = 4 then some { tag := some "li", parent := some 9 }
          else none } rfl rfl).1,
   (domonly_detach_destroy { cls := .widgetSub, domNode := some 4 }
      { cls := .domContentComponent, domNode := some 4 } 4 Dom.empty rfl rfl).2 rfl⟩

/-! ## C9 -/

/-- C9: a Control fails the isInstanceOf(_WidgetBase) probe even though it
borrows placeAt, get and set from the widget base prototype; consequently
the attachment manager routes every Control through the plain-node branch
(never addChild and never the widget placeAt branch), and the lifecycle
controller's started and being-destroyed guards never suppress a Control's
startup or destroy calls. -/
theorem control_fails_widget_probe (self inst : Instance) (pos : Option Nat) (dom : Dom)
    (hcls : inst.cls = .control) :
    isInstanceOf (dojoClassOf InstanceClass.control) DojoClass.widgetBase = false
    ∧ "placeAt" ∈ controlBorrowedWidgetMethods
    ∧ "get" ∈ controlBorrowedWidgetMethods
    ∧ "set" ∈ controlBorrowedWidgetMethods
    ∧ _attachUiComponent self inst pos dom
        = (match inst.domNode with
           | some n => domConstruct.place n
               (if some n = jsOr self.containerNode self.domNode then self.domNode
                else jsOr self.containerNode self.domNode) pos dom
           | none => .ok dom)
    ∧ _startupChildComponent inst = inst.startup
    ∧ (∀ d2, _destroyChildComponent inst d2 = inst.destroy d2) := by
  have hw : inst.isWidgetBase = false := by
    simp [Instance.isWidgetBase, dojoClassOf, isInstanceOf, ancestors, hcls]
  refine ⟨rfl, by simp [controlBorrowedWidgetMethods], by simp [controlBorrowedWidgetMethods],
    by simp [controlBorrowedWidgetMethods], ?_, ?_, ?_⟩
  · simp [_attachUiComponent, hw]
  · simp [_startupChildComponent, hw]
  · intro d2
    simp [_destroyChildComponent, hw]

/-- Witness for C9 at a concrete Control child of a widget parent. -/
theorem control_fails_widget_probe_witness :
    isInstanceOf (dojoClassOf InstanceClass.control) DojoClass.widgetBase = false
    ∧ "placeAt" ∈ controlBorrowedWidgetMethods
    ∧ "get" ∈ controlBorrowedWidgetMethods
    ∧ "set" ∈ controlBorrowedWidgetMethods
    ∧ _attachUiComponent { cls := .widgetSub, domNode := some 7 }
        { cls := .control, domNode := some 5 } none Dom.empty
        = (match ({ cls := .control, domNode := some 5 } : Instance).domNode with
           | some n => domConstruct.place n
               (if some n = jsOr (none : Option NodeId) (some 7) then some 7
                else jsOr (none : Option NodeId) (some 7)) none Dom.empty
           | none => .ok Dom.empty)
    ∧ _startupChildComponent { cls := .control, domNode := some 5 }
        = Instance.startup { cls := .control, domNode := some 5 }
    ∧ (∀ d2, _destroyChildComponent { cls := .control, domNode := some 5 } d2
        = Instance.destroy { cls := .control, domNode := some 5 } d2) :=
  control_fails_widget_probe { cls := .widgetSub, domNode := some 7 }
    { cls := .control, domNode := some 5 } none Dom.empty rfl

/-! ## C4 -/

/-- Updates preserve presence of any node in the store. -/
lemma nodes_update_isSome (d : Dom) (x : NodeId) (f : NodeData → NodeData) (m : NodeId) :
    ((Dom.update d x f).nodes m).isSome = (d.nodes m).isSome := by
  simp only [Dom.update]
  split <;> simp

/-- Removal from a parent preserves presence of any node in the store. -/
lemma nodes_removeFromParent_isSome (dom : Dom) (n m : NodeId) :
    ((removeFromParent n dom).nodes m).isSome = (dom.nodes m).isSome := by
  unfold removeFromParent
  rcases h : dom.parentOf n with _ | p
  · rfl
  · simp [nodes_update_isSome]

/-- Removing a parentless node from its parent changes nothing. -/
lemma removeFromParent_no_parent (dom : Dom) (n : NodeId) (h : dom.parentOf n = none) :
    removeFromParent n dom = dom := by
  unfold removeFromParent
  rw [h]

/-- Placement into an existing reference node succeeds and re-parents the
placed node to the reference node. -/
lemma place_parentOf (dom : Dom) (n r : NodeId) (pos : Option Nat)
    (hn : (dom.nodes n).isSome = true) (hnr : n ≠ r) :
    ∃ dom2, domConstruct.place n (some r) pos dom = .ok dom2
      ∧ dom2.parentOf n = some r := by
  refine ⟨_, rfl, ?_⟩
  have h1 : ((removeFromParent n dom).nodes n).isSome = true := by
    rw [nodes_removeFromParent_isSome]
    exact hn
  obtain ⟨d, hd⟩ := Option.isSome_iff_exists.mp h1
  simp [Dom.parentOf, Dom.update, hnr, hd]

/-- C4 amended: attach dispatches on capability.  A widget-capable child of
a container-capable parent is inserted under the parent's containerNode via
addChild; a widget-capable child of a non-container parent is placed into
the referenceNode, retargeted to the parent's own node when the child's root
node equals the referenceNode; a non-widget child exposing a node is placed
into the referenceNode with the same retargeting fallback. -/
theorem attach_dispatch (self inst : Instance) (pos : Option Nat) (dom : Dom) (n : NodeId)
    (hnode : inst.domNode = some n) (hn : (dom.nodes n).isSome = true) :
    (∀ r, inst.isWidgetBase = true → self.isContainer = true →
       self.containerNode = some r → n ≠ r →
       ∃ dom2, _attachUiComponent self inst pos dom = .ok dom2 ∧ dom2.parentOf n = some r)
    ∧ (∀ r, inst.isWidgetBase = true → self.isContainer = false →
       jsOr self.containerNode self.domNode = some r → n ≠ r →
       ∃ dom2, _attachUiComponent self inst pos dom = .ok dom2 ∧ dom2.parentOf n = some r)
    ∧ (∀ r m, inst.isWidgetBase = true → self.isContainer = false →
       jsOr self.containerNode self.domNode = some r → n = r → self.domNode = some m →
       n ≠ m →
       ∃ dom2, _attachUiComponent self inst pos dom = .ok dom2 ∧ dom2.parentOf n = some m)
    ∧ (∀ r, inst.isWidgetBase = false →
       jsOr self.containerNode self.domNode = some r → n ≠ r →
       ∃ dom2, _attachUiComponent self inst pos dom = .ok dom2 ∧ dom2.parentOf n = some r)
    ∧ (∀ r m, inst.isWidgetBase = false →
       jsOr self.containerNode self.domNode = some r → n = r → self.domNode = some m →
       n ≠ m →
       ∃ dom2, _attachUiComponent self inst pos dom = .ok dom2
         ∧ dom2.parentOf n = some m) := by
  refine ⟨?_, ?_, ?_, ?_, ?_⟩
  · intro r hw hc hcn hne
    obtain ⟨dom2, hok, hp⟩ := place_parentOf dom n r pos hn hne
    refine ⟨dom2, ?_, hp⟩
    simp [_attachUiComponent, hw, hc, Instance.addChild, Instance.placeAt, hcn, hnode, hok]
  · intro r hw hc hcn hne
    obtain ⟨dom2, hok, hp⟩ := place_parentOf dom n r pos hn hne
    refine ⟨dom2, ?_, hp⟩
    simp [_attachUiComponent, hw, hc, hcn, Instance.placeAt, hnode, hne, hok]
  · intro r m hw hc hcn hnr hdm hnm
    obtain ⟨dom2, hok, hp⟩ := place_parentOf dom n m pos hn hnm
    refine ⟨dom2, ?_, hp⟩
    subst hnr
    have hcn2 : jsOr self.containerNode (some m) = some n := by
      rw [← hdm]
      exact hcn
    simp [_attachUiComponent, hw, hc, Instance.placeAt, hnode, hdm, hcn2, hok]
  · intro r hw hcn hne
    obtain ⟨dom2, hok, hp⟩ := place_parentOf dom n r pos hn hne
    refine ⟨dom2, ?_, hp⟩
    simp [_attachUiComponent, hw, hcn, hnode, hne, hok]
  · intro r m hw hcn hnr hdm hnm
    obtain ⟨dom2, hok, hp⟩ := place_parentOf dom n m pos hn hnm
    refine ⟨dom2, ?_, hp⟩
    subst hnr
    have hcn2 : jsOr self.containerNode (some m) = some n := by
      rw [← hdm]
      exact hcn
    simp [_attachUiComponent, hw, hnode, hdm, hcn2, hok]

/-- Witness for C4 at concrete container and raw-node parents. -/
theorem attach_dispatch_witness :
    (∃ dom2, _attachUiComponent { cls := .containerWidgetSub, containerNode := some 0 }
        (mkWidget 1) (some 0)
        { nextId := 2, nodes := fun k => if k ≤ 1 then some {} else none } = .ok dom2
      ∧ dom2.parentOf 1 = some 0)
    ∧ (∃ dom2, _attachUiComponent { cls := .widgetSub, domNode := some 0 }
        (mkPlainNodeInstance 1) (some 0)
        { nextId := 2, nodes := fun k => if k ≤ 1 then some {} else none } = .ok dom2
      ∧ dom2.parentOf 1 = some 0) :=
  ⟨(attach_dispatch { cls := .containerWidgetSub, containerNode := some 0 } (mkWidget 1)
      (some 0) { nextId := 2, nodes := fun k => if k ≤ 1 then some {} else none } 1
      rfl (by decide)).1 0 rfl rfl rfl (by decide),
   (attach_dispatch { cls := .widgetSub, domNode := some 0 } (mkPlainNodeInstance 1)
      (some 0) { nextId := 2, nodes := fun k => if k ≤ 1 then some {} else none } 1
      rfl (by decide)).2.2.2.1 0 rfl rfl (by decide)⟩

/-- C4 counterexample: a non-widget child whose node equals the parent's
containerNode (the referenceNode) is not inserted into the referenceNode;
the code retargets it to the parent's own node. -/
theorem attach_nonwidget_not_into_reference :
    parentAfter (_attachUiComponent
        { cls := .widgetSub, domNode := some 7, containerNode := some 5 }
        { cls := .domContentComponent, domNode := some 5 } none
        { nextId := 8,
          nodes := fun k =>
            if k = 5 then some { tag := some "ul" }
            else if k = 7 then some { tag := some "div" } else none }) 5
      = some (some 7)
    ∧ some (some (7 : NodeId)) ≠ some (some (5 : NodeId)) := by
  exact ⟨rfl, by decide⟩

/-! ## C6 -/

/-- Ascending position lists stay ascending from any smaller bound. -/
lemma ascendingFrom_mono (a b : Nat) (l : List (NodeId × Nat)) (hab : a ≤ b)
    (h : ascendingFrom b l = true) : ascendingFrom a l = true := by
  cases l with
  | nil => rfl
  | cons q rest =>
      obtain ⟨n, p⟩ := q
      simp only [ascendingFrom, Bool.and_eq_true, decide_eq_true_eq] at h ⊢
      exact ⟨le_trans hab h.1, h.2⟩

/-- Fresh nodes are distinct from the target parent. -/
lemma freshNodes_mem_ne (dom : Dom) (r : NodeId) (l : List (NodeId × Nat))
    (h : freshNodes dom r l = true) : ∀ m ∈ l.map Prod.fst, m ≠ r := by
  induction l with
  | nil => simp
  | cons q rest ih =>
      obtain ⟨n, p⟩ := q
      simp only [freshNodes, Bool.and_eq_true, bne_iff_ne, ne_eq, beq_iff_eq] at h
      intro m hm
      simp only [List.map_cons, List.mem_cons] at hm
      rcases hm with rfl | hm
      · exact h.1.2
      · exact ih h.2 m hm

/-- Freshness only depends on the store entries of the listed nodes. -/
lemma freshNodes_preserved (dom dom2 : Dom) (r : NodeId) (l : List (NodeId × Nat))
    (hpres : ∀ m, m ∈ l.map Prod.fst → dom2.nodes m = dom.nodes m)
    (h : freshNodes dom r l = true) : freshNodes dom2 r l = true := by
  induction l with
  | nil => rfl
  | cons q rest ih =>
      obtain ⟨n, p⟩ := q
      simp only [freshNodes, Bool.and_eq_true, bne_iff_ne, ne_eq, beq_iff_eq] at h ⊢
      have hn := hpres n (by simp)
      have hrest : ∀ m, m ∈ rest.map Prod.fst → dom2.nodes m = dom.nodes m :=
        fun m hm => hpres m (by simp [hm])
      have hpar : dom2.parentOf n = dom.parentOf n := by
        simp only [Dom.parentOf, hn]
      refine ⟨⟨⟨?_, ?_⟩, h.1.2⟩, ih hrest h.2⟩
      · rw [hn]
        exact h.1.1.1
      · rw [hpar]
        exact h.1.1.2

/-- Placing a fresh node into an existing parent at a position at or beyond
the current child count appends it, touches no other store entry, and keeps
both nodes present. -/
lemma place_fresh (dom : Dom) (n r : NodeId) (p : Nat)
    (hr : (dom.nodes r).isSome = true)
    (hn : (dom.nodes n).isSome = true)
    (hpar : dom.parentOf n = none)
    (hnr : n ≠ r)
    (hp : (dom.childrenOf r).length ≤ p) :
    ∃ dom2, domConstruct.place n (some r) (some p) dom = .ok dom2
      ∧ dom2.childrenOf r = dom.childrenOf r ++ [n]
      ∧ (∀ m, m ≠ n → m ≠ r → dom2.nodes m = dom.nodes m)
      ∧ (dom2.nodes r).isSome = true
      ∧ (dom2.nodes n).isSome = true := by
  obtain ⟨d, hd⟩ := Option.isSome_iff_exists.mp hr
  have hrm : removeFromParent n dom = dom := removeFromParent_no_parent dom n hpar
  refine ⟨Dom.update
      (Dom.update dom r (fun x => { x with children := insertAt x.children p n }))
      n (fun x => { x with parent := some r }), ?_, ?_, ?_, ?_, ?_⟩
  · simp only [domConstruct.place, hrm]
  · have hcr : r ≠ n := Ne.symm hnr
    have hlen : d.children.length ≤ p := by
      have hh : dom.childrenOf r = d.children := by simp [Dom.childrenOf, hd]
      rwa [hh] at hp
    simp [Dom.childrenOf, Dom.update, hcr, hd, insertAt, hlen]
  · intro m hmn hmr
    simp [Dom.update, hmn, hmr]
  · simp only [nodes_update_isSome]
    exact hr
  · simp only [nodes_update_isSome]
    exact hn

/-- Successive placements of fresh nodes with ascending positions append
them in call order. -/
lemma placeSeq_ascending (pairs : List (NodeId × Nat)) (dom : Dom) (r : NodeId)
    (hr : (dom.nodes r).isSome = true)
    (hfresh : freshNodes dom r pairs = true)
    (hnd : (pairs.map Prod.fst).Nodup)
    (hasc : ascendingFrom (dom.childrenOf r).length pairs = true) :
    ∃ dom2, placeSeq pairs r dom = .ok dom2
      ∧ dom2.childrenOf r = dom.childrenOf r ++ pairs.map Prod.fst := by
  induction pairs generalizing dom with
  | nil => exact ⟨dom, rfl, by simp⟩
  | cons q rest ih =>
      obtain ⟨n, p⟩ := q
      simp only [freshNodes, Bool.and_eq_true, bne_iff_ne, ne_eq, beq_iff_eq] at hfresh
      obtain ⟨⟨⟨h1, h2⟩, h3⟩, h4⟩ := hfresh
      simp only [ascendingFrom, Bool.and_eq_true, decide_eq_true_eq] at hasc
      obtain ⟨hp0, hasc2⟩ := hasc
      simp only [List.map_cons, List.nodup_cons] at hnd
      obtain ⟨hnmem, hnd2⟩ := hnd
      obtain ⟨dom2, hok, hch, hpres, hr2, hn2⟩ := place_fresh dom n r p hr h1 h2 h3 hp0
      have hprest : ∀ m, m ∈ rest.map Prod.fst → dom2.nodes m = dom.nodes m := by
        intro m hm
        exact hpres m (fun he => hnmem (he ▸ hm))
          (freshNodes_mem_ne dom r rest h4 m hm)
      have hfresh2 : freshNodes dom2 r rest = true :=
        freshNodes_preserved dom dom2 r rest hprest h4
      have hasc3 : ascendingFrom ((dom2.childrenOf r).length) rest = true := by
        rw [hch]
        simp only [List.length_append, List.length_cons, List.length_nil]
        exact ascendingFrom_mono _ _ rest (by omega) hasc2
      obtain ⟨dom3, hok3, hch3⟩ := ih dom2 hr2 hfresh2 hnd2 hasc3
      refine ⟨dom3, ?_, ?_⟩
      · simp [placeSeq, hok, hok3]
      · rw [hch3, hch]
        simp

/-- Attaching widget children to a container-capable parent is the placement
sequence into its containerNode. -/
lemma attachList_widget_container (self : Instance) (r : NodeId)
    (pairs : List (NodeId × Nat)) (dom : Dom)
    (hc : self.isContainer = true) (hcn : self.containerNode = some r) :
    attachList self (pairs.map fun q => (mkWidget q.1, some q.2)) dom
      = placeSeq pairs r dom := by
  induction pairs generalizing dom with
  | nil => rfl
  | cons q rest ih =>
      obtain ⟨n, p⟩ := q
      have hstep : _attachUiComponent self (mkWidget n) (some p) dom
          = domConstruct.place n (some r) (some p) dom := by
        simp [_attachUiComponent, mkWidget, Instance.isWidgetBase, dojoClassOf, isInstanceOf,
          ancestors, hc, Instance.addChild, Instance.placeAt, hcn]
      simp only [List.map_cons, attachList, placeSeq]
      rw [hstep]
      cases h : domConstruct.place n (some r) (some p) dom with
      | error e => rfl
      | ok dom1 => exact ih dom1

/-- Attaching plain node children whose nodes differ from the reference node
is the placement sequence into the reference node. -/
lemma attachList_plain (self : Instance) (r : NodeId)
    (pairs : List (NodeId × Nat)) (dom : Dom)
    (hcn : jsOr self.containerNode self.domNode = some r)
    (hne : ∀ m ∈ pairs.map Prod.fst, m ≠ r) :
    attachList self (pairs.map fun q => (mkPlainNodeInstance q.1, some q.2)) dom
      = placeSeq pairs r dom := by
  induction pairs generalizing dom with
  | nil => rfl
  | cons q rest ih =>
      obtain ⟨n, p⟩ := q
      have hn : n ≠ r := hne n (by simp)
      have hstep : _attachUiComponent self (mkPlainNodeInstance n) (some p) dom
          = domConstruct.place n (some r) (some p) dom := by
        simp [_attachUiComponent, mkPlainNodeInstance, Instance.isWidgetBase, dojoClassOf,
          isInstanceOf, ancestors, hcn, hn]
      simp only [List.map_cons, attachList, placeSeq]
      rw [hstep]
      cases h : domConstruct.place n (some r) (some p) dom with
      | error e => rfl
      | ok dom1 => exact ih dom1 (fun m hm => hne m (List.mem_cons_of_mem n hm))

/-- C6 amended: fresh siblings attached in ascending position order, with
the attach calls made in that same ascending order, are appended in call
order and so appear in ascending position order, both under a
container-capable parent (through addChild) and under a raw-node parent
(through direct placement into the reference node).  For arbitrary call
order the guarantee fails; see the counterexample. -/
theorem attach_ascending_order (selfC selfR : Instance) (r : NodeId)
    (pairs : List (NodeId × Nat)) (dom : Dom)
    (hr : (dom.nodes r).isSome = true)
    (hfresh : freshNodes dom r pairs = true)
    (hnd : (pairs.map Prod.fst).Nodup)
    (hasc : ascendingFrom (dom.childrenOf r).length pairs = true)
    (hC1 : selfC.isContainer = true) (hC2 : selfC.containerNode = some r)
    (hR : jsOr selfR.containerNode selfR.domNode = some r) :
    (∃ dom2, attachList selfC (pairs.map fun q => (mkWidget q.1, some q.2)) dom = .ok dom2
       ∧ dom2.childrenOf r = dom.childrenOf r ++ pairs.map Prod.fst)
    ∧ (∃ dom3,
        attachList selfR (pairs.map fun q => (mkPlainNodeInstance q.1, some q.2)) dom
          = .ok dom3
       ∧ dom3.childrenOf r = dom.childrenOf r ++ pairs.map Prod.fst) := by
  constructor
  · rw [attachList_widget_container selfC r pairs dom hC1 hC2]
    exact placeSeq_ascending pairs dom r hr hfresh hnd hasc
  · rw [attachList_plain selfR r pairs dom hR (freshNodes_mem_ne dom r pairs hfresh)]
    exact placeSeq_ascending pairs dom r hr hfresh hnd hasc

/-- A concrete DOM with four parentless nodes 0, 1, 2 and 3. -/
def c6dom : Dom := { nextId := 4, nodes := fun k => if k ≤ 3 then some {} else none }

/-- Witness for C6 amended: children with positions 0, 1, 2 attached in that
order land in that order under both parent kinds. -/
theorem attach_ascending_order_witness :
    (∃ dom2, attachList { cls := .containerWidgetSub, containerNode := some 0 }
        ([((1 : NodeId), (0 : Nat)), (2, 1), (3, 2)].map fun q => (mkWidget q.1, some q.2))
        c6dom = .ok dom2
      ∧ dom2.childrenOf 0 = c6dom.childrenOf 0 ++ [(1 : NodeId), 2, 3])
    ∧ (∃ dom3, attachList { cls := .widgetSub, domNode := some 0 }
        ([((1 : NodeId), (0 : Nat)), (2, 1), (3, 2)].map
          fun q => (mkPlainNodeInstance q.1, some q.2)) c6dom = .ok dom3
      ∧ dom3.childrenOf 0 = c6dom.childrenOf 0 ++ [(1 : NodeId), 2, 3]) := by
  have h := attach_ascending_order { cls := .containerWidgetSub, containerNode := some 0 }
    { cls := .widgetSub, domNode := some 0 } 0 [(1, 0), (2, 1), (3, 2)] c6dom
    (by decide) (by decide) (by decide) (by decide) rfl rfl rfl
  exact h

/-- C6 counterexample: the same three children with ascending positions
0, 1 and 2 (held by nodes 3, 2 and 1), attached in descending call order,
end up in order 3, 1, 2 instead of the position order 3, 2, 1: the ordering
guarantee does not hold for arbitrary call order. -/
theorem attach_any_call_order_fails :
    childrenAfter (attachList { cls := .containerWidgetSub, containerNode := some 0 }
        [(mkWidget 1, some 2), (mkWidget 2, some 1), (mkWidget 3, some 0)] c6dom) 0
      = some [3, 1, 2]
    ∧ some [3, 1, 2] ≠ some [(3 : NodeId), 2, 1] := by
  exact ⟨rfl, by decide⟩
